import Mathlib

/-!
Shallow embedding of the SuperStore KPI dashboard's filter-and-aggregation
pipeline (`CurrentDashboard_app.py`), and proofs of the spec's claims about it.

The dataframe is modelled as a `List Record`.  Categorical columns are
`Option String` (a `none` models a missing value / pandas `NaN`; any pandas
equality comparison with `NaN` is false, and `dropna` removes them).
`Order Date` is modelled as a timestamp in minutes (`day * 1440 + minuteOfDay`),
so a calendar date `d` corresponds to the timestamp `d * 1440` (midnight), the
value `pd.to_datetime` produces from a `datetime.date`.
Money amounts are `ℚ`, quantities `ℤ`.
-/

namespace Dashboard

/-- One row of the dataframe loaded by `load_data` (one sales transaction).
`orderDate` is minutes since the epoch: `day * 1440 + minute-of-day`. -/
structure Record where
  orderDate   : Nat
  region      : Option String
  state       : Option String
  category    : Option String
  subCategory : Option String
  segment     : Option String
  productName : Option String
  sales       : ℚ
  quantity    : ℤ
  profit      : ℚ
deriving DecidableEq, Repr

/-- A sidebar selectbox value: the sentinel `"All"` or a specific value. -/
inductive Choice where
  | all : Choice
  | value : String → Choice
deriving DecidableEq, Repr

/-- The sidebar state: one `Choice` per categorical dimension plus the two
date inputs (calendar dates, i.e. day numbers, no time-of-day). -/
structure FilterSelection where
  region      : Choice
  state       : Choice
  category    : Choice
  subCategory : Choice
  fromDate    : Nat
  toDate      : Nat
deriving DecidableEq, Repr

/-- `pd.to_datetime` applied to a `datetime.date`: midnight of that day,
as a minute timestamp. -/
def midnight (d : Nat) : Nat := d * 1440

/-- The calendar date (day number) of a minute timestamp. -/
def dateOf (ts : Nat) : Nat := ts / 1440

/-- One categorical filter stage (lines 31-34, 41-44, 51-54, 62-63 of the
source): selection `"All"` passes the frame through unchanged, otherwise keep
the rows whose field equals the selected value.  A row whose field is missing
(`NaN`) never equals a string value, so it is dropped by a non-`All`
selection. -/
def catFilter (get : Record → Option String) (c : Choice) (l : List Record) :
    List Record :=
  match c with
  | .all => l
  | .value v => l.filter fun r => decide (get r = some v)

/-- `df_filtered_region` (line 31-34). -/
def df_filtered_region (ds : List Record) (sel : FilterSelection) : List Record :=
  catFilter Record.region sel.region ds

/-- `df_filtered_state` (line 41-44). -/
def df_filtered_state (ds : List Record) (sel : FilterSelection) : List Record :=
  catFilter Record.state sel.state (df_filtered_region ds sel)

/-- `df_filtered_category` (line 51-54). -/
def df_filtered_category (ds : List Record) (sel : FilterSelection) : List Record :=
  catFilter Record.category sel.category (df_filtered_state ds sel)

/-- The sub-category stage (lines 61-63), producing the pre-date-filter `df`. -/
def df_filtered_subcat (ds : List Record) (sel : FilterSelection) : List Record :=
  catFilter Record.subCategory sel.subCategory (df_filtered_category ds sel)

/-- The date-range stage (lines 86-89): keep rows whose full `Order Date`
timestamp lies between `pd.to_datetime(from_date)` and
`pd.to_datetime(to_date)`, both midnights, inclusive. -/
def dateFilter (fromDate toDate : Nat) (l : List Record) : List Record :=
  l.filter fun r =>
    decide (midnight fromDate ≤ r.orderDate) && decide (r.orderDate ≤ midnight toDate)

/-- The final `df` after all five stages (the WorkingSet). -/
def df (ds : List Record) (sel : FilterSelection) : List Record :=
  dateFilter sel.fromDate sel.toDate (df_filtered_subcat ds sel)

/-- The `from_date > to_date` validation check (lines 82-83): it only emits a
sidebar error message; execution continues into the date filter. -/
def date_range_error (sel : FilterSelection) : Bool :=
  decide (sel.toDate < sel.fromDate)

/-- `sorted(column.dropna().unique())`: the distinct values of an
already-`dropna`ed column, in ascending order. -/
def sortedUnique (l : List String) : List String :=
  List.insertionSort (· ≤ ·) l.dedup

/-- `all_regions` (line 27). -/
def all_regions (ds : List Record) : List String :=
  sortedUnique (ds.filterMap Record.region)

/-- `all_states` (line 37): distinct states of the region-filtered frame. -/
def all_states (ds : List Record) (sel : FilterSelection) : List String :=
  sortedUnique ((df_filtered_region ds sel).filterMap Record.state)

/-- `all_categories` (line 47): distinct categories of the state-filtered frame. -/
def all_categories (ds : List Record) (sel : FilterSelection) : List String :=
  sortedUnique ((df_filtered_state ds sel).filterMap Record.category)

/-- `all_subcats` (line 57): distinct sub-categories of the category-filtered
frame. -/
def all_subcats (ds : List Record) (sel : FilterSelection) : List String :=
  sortedUnique ((df_filtered_category ds sel).filterMap Record.subCategory)

/-- The four scalar KPI values (lines 168-177).  The source immediately
formats them into display strings (`format_number`, the percent sign, the
`* 100` scaling); formatting is out of the spec's scope, so the model keeps
the underlying numbers: the three sums, and the margin as the ratio
`profit_sum / sales_sum` guarded to `0` when `sales_sum == 0` (one branch of
the guard also covers the `df.empty` case, where every literal is `0`). -/
structure KPIs where
  total_sales    : ℚ
  total_quantity : ℤ
  total_profit   : ℚ
  margin_rate    : ℚ
deriving DecidableEq, Repr

/-- Lines 168-177: the `if df.empty` branch yields the four zero literals,
otherwise the sums and the guarded ratio. -/
def computeKPIs (l : List Record) : KPIs :=
  if l = [] then ⟨0, 0, 0, 0⟩
  else
    { total_sales    := (l.map Record.sales).sum
      total_quantity := (l.map Record.quantity).sum
      total_profit   := (l.map Record.profit).sum
      margin_rate    :=
        if (l.map Record.sales).sum ≠ 0 then
          (l.map Record.profit).sum / (l.map Record.sales).sum
        else 0 }

/-- The KPI radio options (line 229): `"Sales"`, `"Quantity"`, `"Profit"`,
`"Margin Rate"`. -/
inductive Metric where
  | sales | quantity | profit | marginRate
deriving DecidableEq, Repr

/-- One row of a grouped-and-aggregated frame (`daily_grouped` /
`product_grouped`, lines 234-248): the group key, the three per-group sums,
and the derived `Margin Rate` column. -/
structure GroupAgg (κ : Type) where
  key        : κ
  sales      : ℚ
  quantity   : ℤ
  profit     : ℚ
  marginRate : ℚ
deriving DecidableEq, Repr

/-- The value of the chosen metric's column in a grouped row (the column
`selected_kpi` names). -/
def metricValue {κ : Type} (m : Metric) (g : GroupAgg κ) : ℚ :=
  match m with
  | .sales => g.sales
  | .quantity => (g.quantity : ℚ)
  | .profit => g.profit
  | .marginRate => g.marginRate

/-- One output row of `groupby(key).agg(sum)` followed by the
`Margin Rate = Profit / Sales.replace(0, 1)` column (lines 234-240 /
243-248): sum the three columns over the rows carrying this key, then divide
the profit sum by the sales sum with an exact `0` replaced by `1`. -/
def aggRow {κ : Type} [DecidableEq κ] (get : Record → Option κ) (k : κ)
    (l : List Record) : GroupAgg κ :=
  let rows := l.filter fun r => decide (get r = some k)
  let s := (rows.map Record.sales).sum
  let p := (rows.map Record.profit).sum
  { key := k
    sales := s
    quantity := (rows.map Record.quantity).sum
    profit := p
    marginRate := p / (if s = 0 then 1 else s) }

/-- `df.groupby(key).agg({sum,sum,sum})` with the derived margin column.
pandas `groupby` drops rows whose key is missing (`dropna=True` is the
default) and, with the default `sort=True`, emits the groups in ascending
key order. -/
def groupby {κ : Type} [DecidableEq κ] [LinearOrder κ]
    (get : Record → Option κ) (l : List Record) : List (GroupAgg κ) :=
  (List.insertionSort (· ≤ ·) ((l.filterMap get).dedup)).map fun k =>
    aggRow get k l

/-- `daily_grouped` (lines 234-240): grouped by the exact `Order Date`
timestamp. -/
def daily_grouped (l : List Record) : List (GroupAgg Nat) :=
  groupby (fun r => some r.orderDate) l

/-- `product_grouped` (lines 243-248): grouped by `Product Name`. -/
def product_grouped (l : List Record) : List (GroupAgg String) :=
  groupby Record.productName l

/-- The ascending comparison on the `selected_kpi` column. -/
def metricLE {κ : Type} (m : Metric) (a b : GroupAgg κ) : Prop :=
  metricValue m a ≤ metricValue m b

instance {κ : Type} (m : Metric) : DecidableRel (metricLE (κ := κ) m) :=
  fun a b => inferInstanceAs (Decidable (metricValue m a ≤ metricValue m b))

/-- `sort_values(by=selected_kpi, ascending=False)` (line 251).  For a single
sort key pandas computes an ascending `argsort` and reverses the resulting
indexer (`pandas.core.sorting.nargsort`: `indexer = indexer[::-1]`).  The
ascending pass uses numpy's default `kind='quicksort'` (introsort), which
carries no tie-order guarantee; the model's insertion sort agrees with it on
every property proved below — length, the multiset of rows, descending
order of the result — and additionally on the exact output for the concrete
two-element instances used here (numpy falls back to a stable insertion sort
below its small-array cutoff, and the reversal then flips the tie).  No
theorem relies on the model's tie order beyond those concrete instances. -/
def sort_values_desc {κ : Type} (m : Metric) (l : List (GroupAgg κ)) :
    List (GroupAgg κ) :=
  (List.insertionSort (metricLE m) l).reverse

/-- `top_10 = product_grouped.head(10)` after the in-place descending sort
(lines 251-252). -/
def top_10 {κ : Type} (m : Metric) (l : List (GroupAgg κ)) : List (GroupAgg κ) :=
  (sort_values_desc m l).take 10

/-- The data the two KPI charts consume (lines 234-252). -/
structure ChartData where
  daily   : List (GroupAgg Nat)
  product : List (GroupAgg String)
  top10   : List (GroupAgg String)
deriving DecidableEq, Repr

/-- Lines 225-252: when `df` is empty the branch shows a warning and computes
nothing — in particular the local variable `selected_kpi` is never assigned.
When `df` is non-empty, `selected_kpi` is the radio choice and the two
groupings and the top-10 are computed.  The returned `Option` records whether
`selected_kpi` was assigned. -/
def chartStage (l : List Record) (kpiChoice : Metric) :
    Option (Metric × ChartData) :=
  if l = [] then none
  else
    some (kpiChoice,
      { daily := daily_grouped l
        product := product_grouped l
        top10 := top_10 kpiChoice (product_grouped l) })

/-- Everything the script computes for one run, when it finishes. -/
structure DashboardOutput where
  validationError : Bool
  kpis : KPIs
  charts : Option (Metric × ChartData)
  pieKpi : Metric
deriving Repr

/-- One top-to-bottom run of the script on a freshly loaded dataset (streamlit
reruns the whole file on every interaction; plain local variables do not
survive between runs).  `kpiChoice` is the value the KPI radio would produce
if it is rendered.  The pie-chart / treemap section (lines 293-313) reads
`selected_kpi` unconditionally, but that name is only assigned inside the
non-empty branch of line 225; on a run with an empty `df` the read raises
`NameError`, modelled as `Except.error`. -/
def runDashboard (ds : List Record) (sel : FilterSelection)
    (kpiChoice : Metric) : Except String DashboardOutput :=
  let ws := df ds sel
  let kpis := computeKPIs ws
  let charts := chartStage ws kpiChoice
  match charts with
  | none => Except.error "NameError: name selected_kpi is not defined"
  | some (k, cd) =>
    Except.ok
      { validationError := date_range_error sel
        kpis := kpis
        charts := some (k, cd)
        pieKpi := k }

/-! ### Characterization predicates

These predicates restate, row by row, what the cascade retains; the lemmas
below prove that the staged pipeline agrees with them. -/

/-- A row's field satisfies a selectbox choice: `"All"` accepts every row,
a concrete value accepts exactly the rows whose field equals it (a missing
field never equals a string value). -/
def choiceMatches (c : Choice) (v : Option String) : Bool :=
  match c with
  | .all => true
  | .value s => decide (v = some s)

/-- A row's timestamp lies between the two midnights, inclusive. -/
def inDateRange (sel : FilterSelection) (r : Record) : Bool :=
  decide (midnight sel.fromDate ≤ r.orderDate) &&
    decide (r.orderDate ≤ midnight sel.toDate)

/-- A row satisfies all five filter stages of a selection. -/
def matchesSelection (sel : FilterSelection) (r : Record) : Bool :=
  choiceMatches sel.region r.region && choiceMatches sel.state r.state &&
    choiceMatches sel.category r.category &&
    choiceMatches sel.subCategory r.subCategory && inDateRange sel r

/-- The number of distinct (non-missing) product names in a frame. -/
def distinct_product_count (l : List Record) : Nat :=
  ((l.filterMap Record.productName).dedup).length

/-! ### Helper lemmas -/

theorem catFilter_eq_filter (get : Record → Option String) (c : Choice)
    (l : List Record) :
    catFilter get c l = l.filter fun r => choiceMatches c (get r) := by
  cases c with
  | all => simp [catFilter, choiceMatches]
  | value v => rfl

theorem mem_catFilter {get : Record → Option String} {c : Choice}
    {l : List Record} {r : Record} :
    r ∈ catFilter get c l ↔ r ∈ l ∧ choiceMatches c (get r) = true := by
  rw [catFilter_eq_filter, List.mem_filter]

theorem mem_dateFilter {f t : Nat} {l : List Record} {r : Record} :
    r ∈ dateFilter f t l ↔
      r ∈ l ∧ midnight f ≤ r.orderDate ∧ r.orderDate ≤ midnight t := by
  simp [dateFilter, List.mem_filter]

theorem mem_df {ds : List Record} {sel : FilterSelection} {r : Record} :
    r ∈ df ds sel ↔ r ∈ ds ∧ matchesSelection sel r = true := by
  simp only [df, df_filtered_subcat, df_filtered_category, df_filtered_state,
    df_filtered_region, mem_dateFilter, mem_catFilter, matchesSelection,
    inDateRange, Bool.and_eq_true, decide_eq_true_eq]
  tauto

theorem df_eq_filter (ds : List Record) (sel : FilterSelection) :
    df ds sel = ds.filter (matchesSelection sel) := by
  simp only [df, dateFilter, df_filtered_subcat, df_filtered_category,
    df_filtered_state, df_filtered_region, catFilter_eq_filter,
    List.filter_filter]
  apply List.filter_congr
  intro r _
  simp only [matchesSelection, inDateRange]
  cases choiceMatches sel.region r.region <;>
    cases choiceMatches sel.state r.state <;>
      cases choiceMatches sel.category r.category <;>
        cases choiceMatches sel.subCategory r.subCategory <;>
          cases decide (midnight sel.fromDate ≤ r.orderDate) <;>
            cases decide (r.orderDate ≤ midnight sel.toDate) <;> rfl

theorem catFilter_sublist (get : Record → Option String) (c : Choice)
    (l : List Record) : (catFilter get c l).Sublist l := by
  rw [catFilter_eq_filter]; exact List.filter_sublist l

theorem df_sublist (ds : List Record) (sel : FilterSelection) :
    (df ds sel).Sublist ds := by
  rw [df_eq_filter]; exact List.filter_sublist ds

theorem mem_sortedUnique {l : List String} {a : String} :
    a ∈ sortedUnique l ↔ a ∈ l := by
  rw [sortedUnique, List.mem_insertionSort, List.mem_dedup]

theorem sortedUnique_nodup (l : List String) : (sortedUnique l).Nodup :=
  ((List.perm_insertionSort _ _).nodup_iff).mpr (List.nodup_dedup l)

theorem sortedUnique_sorted (l : List String) :
    List.Sorted (· ≤ ·) (sortedUnique l) :=
  List.sorted_insertionSort _ _

theorem mem_groupby {κ : Type} [DecidableEq κ] [LinearOrder κ]
    {get : Record → Option κ} {l : List Record} {g : GroupAgg κ} :
    g ∈ groupby get l ↔
      ∃ k, k ∈ (l.filterMap get).dedup ∧ g = aggRow get k l := by
  simp only [groupby, List.mem_map, List.mem_insertionSort]
  constructor
  · rintro ⟨k, hk, rfl⟩; exact ⟨k, hk, rfl⟩
  · rintro ⟨k, hk, rfl⟩; exact ⟨k, hk, rfl⟩

theorem aggRow_marginRate {κ : Type} [DecidableEq κ] (get : Record → Option κ)
    (k : κ) (l : List Record) :
    (aggRow get k l).marginRate =
      (aggRow get k l).profit /
        (if (aggRow get k l).sales = 0 then 1 else (aggRow get k l).sales) := rfl

theorem groupby_marginRate {κ : Type} [DecidableEq κ] [LinearOrder κ]
    {get : Record → Option κ} {l : List Record} {g : GroupAgg κ}
    (hg : g ∈ groupby get l) :
    g.marginRate = g.profit / (if g.sales = 0 then 1 else g.sales) := by
  obtain ⟨k, _, rfl⟩ := mem_groupby.mp hg
  exact aggRow_marginRate get k l

theorem groupby_length {κ : Type} [DecidableEq κ] [LinearOrder κ]
    (get : Record → Option κ) (l : List Record) :
    (groupby get l).length = ((l.filterMap get).dedup).length := by
  simp [groupby, List.length_insertionSort]

theorem sum_map_ite {κ M : Type} [DecidableEq κ] [AddCommMonoid M]
    (d : List κ) (k₀ : κ) (c : M) :
    d.Nodup → k₀ ∈ d → (d.map fun k => if k₀ = k then c else 0).sum = c := by
  induction d with
  | nil => intro _ hk; cases hk
  | cons a d ih =>
    intro hd hk
    by_cases hak : k₀ = a
    · subst hak
      rw [List.map_cons, if_pos rfl, List.sum_cons]
      have hz : ∀ k ∈ d, (if k₀ = k then c else 0) = (fun _ : κ => (0 : M)) k := by
        intro k hkd
        have hne : k₀ ≠ k := by rintro rfl; exact (List.nodup_cons.mp hd).1 hkd
        simp [hne]
      rw [List.map_congr_left hz]
      simp
    · have hk' : k₀ ∈ d := by
        rcases List.mem_cons.mp hk with h | h
        · exact absurd h hak
        · exact h
      rw [List.map_cons, if_neg hak, List.sum_cons, zero_add]
      exact ih (List.nodup_cons.mp hd).2 hk'

theorem sum_over_groups {κ M : Type} [DecidableEq κ] [AddCommMonoid M]
    (get : Record → Option κ) (g : Record → M) (d : List κ) (hd : d.Nodup) :
    ∀ l : List Record, (∀ r ∈ l, ∃ k ∈ d, get r = some k) →
      (d.map fun k =>
        ((l.filter fun r => decide (get r = some k)).map g).sum).sum
        = (l.map g).sum := by
  intro l
  induction l with
  | nil => intro _; simp
  | cons r t ih =>
    intro h
    obtain ⟨k₀, hk₀d, hk₀⟩ := h r (List.mem_cons_self r t)
    have ht : ∀ r' ∈ t, ∃ k ∈ d, get r' = some k := fun r' hr' =>
      h r' (List.mem_cons_of_mem r hr')
    have hsplit : ∀ k ∈ d,
        (((r :: t).filter fun r' => decide (get r' = some k)).map g).sum
          = (fun k => (if k₀ = k then g r else 0)
              + ((t.filter fun r' => decide (get r' = some k)).map g).sum) k := by
      intro k _
      show _ = (if k₀ = k then g r else 0)
          + ((t.filter fun r' => decide (get r' = some k)).map g).sum
      rw [List.filter_cons]
      by_cases hk : k₀ = k
      · subst hk
        rw [if_pos (by simp [hk₀]), if_pos rfl, List.map_cons, List.sum_cons]
      · have hne : ¬(get r = some k) := by
          rw [hk₀]
          simpa using hk
        rw [if_neg (by simpa using hne), if_neg hk, zero_add]
    rw [List.map_congr_left hsplit, List.sum_map_add,
      sum_map_ite d k₀ (g r) hd hk₀d, ih ht, List.map_cons, List.sum_cons]

theorem groupby_sum_partition {κ M : Type} [DecidableEq κ] [LinearOrder κ]
    [AddCommMonoid M]
    (get : Record → Option κ) (val : Record → M)
    (aggval : GroupAgg κ → M)
    (hval : ∀ k l, aggval (aggRow get k l) =
      ((l.filter fun r => decide (get r = some k)).map val).sum)
    (ds : List Record) (h : ∀ r ∈ ds, get r ≠ none) :
    ((groupby get ds).map aggval).sum = (ds.map val).sum := by
  have hkeys : ∀ r ∈ ds, ∃ k ∈ (ds.filterMap get).dedup, get r = some k := by
    intro r hr
    obtain ⟨k, hk⟩ := Option.ne_none_iff_exists.mp (h r hr)
    exact ⟨k, List.mem_dedup.mpr (List.mem_filterMap.mpr ⟨r, hr, hk.symm⟩),
      hk.symm⟩
  calc ((groupby get ds).map aggval).sum
      = ((List.insertionSort (· ≤ ·) ((ds.filterMap get).dedup)).map fun k =>
          ((ds.filter fun r => decide (get r = some k)).map val).sum).sum := by
        rw [groupby, List.map_map]
        congr 1
        exact List.map_congr_left fun k _ => hval k ds
    _ = (((ds.filterMap get).dedup).map fun k =>
          ((ds.filter fun r => decide (get r = some k)).map val).sum).sum :=
        ((List.perm_insertionSort _ _).map _).sum_eq
    _ = (ds.map val).sum :=
        sum_over_groups get val _ (List.nodup_dedup _) ds hkeys

instance {κ : Type} (m : Metric) : IsTotal (GroupAgg κ) (metricLE m) :=
  ⟨fun _ _ => le_total _ _⟩

instance {κ : Type} (m : Metric) : IsTrans (GroupAgg κ) (metricLE m) :=
  ⟨fun _ _ _ => le_trans⟩

theorem sort_values_desc_length {κ : Type} (m : Metric)
    (l : List (GroupAgg κ)) : (sort_values_desc m l).length = l.length := by
  simp [sort_values_desc, List.length_insertionSort]

theorem sort_values_desc_sorted {κ : Type} (m : Metric)
    (l : List (GroupAgg κ)) :
    List.Pairwise (fun a b => metricValue m b ≤ metricValue m a)
      (sort_values_desc m l) := by
  rw [sort_values_desc, List.pairwise_reverse]
  exact List.sorted_insertionSort (metricLE m) l

theorem top_10_length {κ : Type} (m : Metric) (l : List (GroupAgg κ)) :
    (top_10 m l).length = min 10 l.length := by
  simp [top_10, List.length_take, sort_values_desc_length]

theorem top_10_sorted {κ : Type} (m : Metric) (l : List (GroupAgg κ)) :
    List.Pairwise (fun a b => metricValue m b ≤ metricValue m a)
      (top_10 m l) :=
  List.Pairwise.sublist (List.take_sublist 10 _) (sort_values_desc_sorted m l)

/-! ### Concrete fixtures used in the claim instances -/

/-- One ordinary row: region West, positive sales and profit. -/
def rWest : Record :=
  ⟨0, some "West", some "California", some "Furniture", some "Chairs",
    some "Consumer", some "Desk", 100, 2, 20⟩

/-- A row with zero sales and non-zero profit. -/
def rZeroSales : Record :=
  ⟨0, some "West", some "California", some "Furniture", some "Chairs",
    some "Consumer", some "Desk", 0, 1, 5⟩

/-- First of two products with equal sales. -/
def rProdA : Record :=
  ⟨0, some "West", some "California", some "Furniture", some "Chairs",
    some "Consumer", some "A", 5, 2, 1⟩

/-- Second of two products with equal sales. -/
def rProdB : Record :=
  ⟨0, some "West", some "California", some "Furniture", some "Chairs",
    some "Consumer", some "B", 5, 3, 1⟩

/-- A row at 01:00 on day 7: its date is day 7 but its timestamp is past
midnight. -/
def rLate : Record :=
  ⟨7 * 1440 + 60, some "West", some "California", some "Furniture",
    some "Chairs", some "Consumer", some "Desk", 5, 1, 1⟩

/-- A row at exactly midnight of day 7. -/
def rMid : Record :=
  ⟨7 * 1440, some "West", some "California", some "Furniture",
    some "Chairs", some "Consumer", some "Desk", 5, 1, 1⟩

/-- A row whose product name is missing. -/
def rNoName : Record :=
  ⟨0, some "West", some "California", some "Furniture", some "Chairs",
    some "Consumer", none, 5, 1, 1⟩

/-- The all-pass selection with date range `[0, 10]`. -/
def selAll : FilterSelection := ⟨.all, .all, .all, .all, 0, 10⟩

/-- A selection whose region matches no fixture row. -/
def selEast : FilterSelection := ⟨.value "East", .all, .all, .all, 0, 10⟩

/-- A selection with inverted date bounds (`from_date > to_date`). -/
def selBad : FilterSelection := ⟨.all, .all, .all, .all, 5, 3⟩

theorem choiceMatches_none {c : Choice} (h : choiceMatches c none = true) :
    c = Choice.all := by
  cases c with
  | all => rfl
  | value v => simp [choiceMatches] at h

/-! ### The claims -/

/-- Claim C1, counterexample: the per-group zero-guard asserted by the claim
fails.  On the working set `[rZeroSales]` the daily grouping has one group
with sales sum `0`, and its `Margin Rate` column holds `5` (the profit sum,
because the source divides by `Sales.replace(0, 1)`), not `0`. -/
theorem C1_counterexample :
    ¬ ∀ g ∈ daily_grouped [rZeroSales], g.sales = 0 → g.marginRate = 0 := by
  intro h
  have hdg : daily_grouped [rZeroSales] = [⟨0, 0, 1, 5, 5⟩] := by
    simp [daily_grouped, groupby, aggRow, rZeroSales, List.dedup,
      List.insertionSort, List.orderedInsert]
  have hg := h ⟨0, 0, 1, 5, 5⟩ (by rw [hdg]; exact List.mem_singleton.mpr rfl)
    rfl
  norm_num at hg

/-- Claim C1, amended: the scalar margin rate equals
`profitSum / salesSum` when `salesSum ≠ 0` and `0` when `salesSum = 0` (also
covering the empty working set); the per-group margin rate of both groupings
equals `profitSum / salesSum` with a zero sales sum replaced by `1` — so a
group with zero sales has margin rate equal to its profit sum, not `0`.
No division by zero occurs in either form. -/
theorem C1_margin_rate_guard (ws : List Record) :
    ((computeKPIs ws).margin_rate =
      if (ws.map Record.sales).sum = 0 then 0
      else (ws.map Record.profit).sum / (ws.map Record.sales).sum) ∧
    (∀ g ∈ daily_grouped ws,
      g.marginRate = g.profit / (if g.sales = 0 then 1 else g.sales) ∧
        (g.sales = 0 → g.marginRate = g.profit)) ∧
    (∀ g ∈ product_grouped ws,
      g.marginRate = g.profit / (if g.sales = 0 then 1 else g.sales) ∧
        (g.sales = 0 → g.marginRate = g.profit)) := by
  refine ⟨?_, ?_, ?_⟩
  · by_cases hws : ws = []
    · subst hws; simp [computeKPIs]
    · rw [computeKPIs, if_neg hws]
      by_cases hs : (ws.map Record.sales).sum = 0 <;> simp [hs]
  · intro g hg
    have h1 := groupby_marginRate hg
    exact ⟨h1, fun h0 => by rw [h1, if_pos h0, div_one]⟩
  · intro g hg
    have h1 := groupby_marginRate hg
    exact ⟨h1, fun h0 => by rw [h1, if_pos h0, div_one]⟩

theorem C1_margin_rate_guard_witness :
    (⟨0, 0, 1, 5, 5⟩ : GroupAgg Nat).marginRate =
      (⟨0, 0, 1, 5, 5⟩ : GroupAgg Nat).profit :=
  ((C1_margin_rate_guard [rZeroSales]).2.1 ⟨0, 0, 1, 5, 5⟩
    (by
      have hdg : daily_grouped [rZeroSales] = [⟨0, 0, 1, 5, 5⟩] := by
        simp [daily_grouped, groupby, aggRow, rZeroSales, List.dedup,
          List.insertionSort, List.orderedInsert]
      rw [hdg]
      exact List.mem_singleton.mpr rfl)).2 rfl

/-- Claim C2, evaluated at the failing input: a selection that matches no
row (`region = "East"` against a West-only dataset) produces an empty `df`;
the scalar KPI stage degrades to zeros, the chart stage is skipped
(`selected_kpi` is never assigned), and the script run then fails with
`NameError` when the pie-chart section reads `selected_kpi` — it does not
degrade silently as the claim states. -/
theorem C2_empty_working_set :
    df [rWest] selEast = [] ∧
    computeKPIs (df [rWest] selEast) = ⟨0, 0, 0, 0⟩ ∧
    chartStage (df [rWest] selEast) Metric.sales = none ∧
    runDashboard [rWest] selEast Metric.sales =
      Except.error "NameError: name selected_kpi is not defined" := by
  refine ⟨by decide, ?_, ?_, ?_⟩
  · have h : df [rWest] selEast = [] := by decide
    rw [h]; rfl
  · have h : df [rWest] selEast = [] := by decide
    rw [h]; rfl
  · rfl

/-- Claim C3, counterexample to stability: two products with equal sales
appear in the product grouping in the order `A, B`, but the ranked top-10 by
sales lists them as `B, A` — ties come out in reverse of the input-grouping
order, because pandas realizes the descending sort as an ascending sort
followed by a reversal. -/
theorem C3_counterexample :
    (product_grouped [rProdA, rProdB]).map GroupAgg.key = ["A", "B"] ∧
    (product_grouped [rProdA, rProdB]).map (metricValue Metric.sales) =
      [5, 5] ∧
    (top_10 Metric.sales (product_grouped [rProdA, rProdB])).map
      GroupAgg.key = ["B", "A"] ∧
    (["B", "A"] : List String) ≠ ["A", "B"] := by
  have hAB : ("A" : String) ≤ "B" := String.le_iff_toList_le.mpr (by decide)
  have hgA : aggRow Record.productName "A" [rProdA, rProdB] =
      ⟨"A", 5, 2, 1, 1/5⟩ := by
    simp [aggRow, rProdA, rProdB]
  have hgB : aggRow Record.productName "B" [rProdA, rProdB] =
      ⟨"B", 5, 3, 1, 1/5⟩ := by
    simp [aggRow, rProdA, rProdB]
  have hkeys : (([rProdA, rProdB].filterMap Record.productName).dedup) =
      ["A", "B"] := by
    simp [rProdA, rProdB, List.dedup]
  have hpg : product_grouped [rProdA, rProdB] =
      [⟨"A", 5, 2, 1, 1/5⟩, ⟨"B", 5, 3, 1, 1/5⟩] := by
    simp only [product_grouped, groupby, hkeys, List.insertionSort,
      List.orderedInsert]
    rw [if_pos hAB]
    simp only [List.map_cons, List.map_nil]
    rw [hgA, hgB]
  have htop : top_10 Metric.sales (product_grouped [rProdA, rProdB]) =
      [⟨"B", 5, 3, 1, 1/5⟩, ⟨"A", 5, 2, 1, 1/5⟩] := by
    rw [hpg]
    simp [top_10, sort_values_desc, List.insertionSort, List.orderedInsert,
      metricLE, metricValue]
  exact ⟨by rw [hpg]; rfl, by rw [hpg]; simp [metricValue],
    by rw [htop]; rfl, by simp⟩

/-- Claim C3, amended: for every working set and metric the ranked top-10
has exactly `min(10, number of distinct products)` entries and is ordered
descending by the chosen metric.  The stability clause of the original claim
is dropped: the sort is not stable (the counterexample's two tied products
come out in reversed order, and the source's default `kind='quicksort'`
gives no tie-order guarantee in general). -/
theorem C3_top10 (m : Metric) (ws : List Record) :
    (top_10 m (product_grouped ws)).length =
      min 10 (distinct_product_count ws) ∧
    List.Pairwise (fun a b => metricValue m b ≤ metricValue m a)
      (top_10 m (product_grouped ws)) := by
  refine ⟨?_, top_10_sorted m _⟩
  rw [top_10_length, distinct_product_count,
    ← groupby_length Record.productName ws]
  rfl

/-- Claim C4, counterexample: a row at 01:00 on day 7 is on a date present
in the dataset, but with `fromDate = toDate = 7` the date stage returns the
empty list, not "exactly the rows on that date" — the row's timestamp
exceeds midnight of `toDate`. -/
theorem C4_counterexample :
    dateOf rLate.orderDate = 7 ∧ rLate ∈ [rLate] ∧
    dateFilter 7 7 [rLate] = [] ∧
    ([rLate].filter fun r => decide (dateOf r.orderDate = 7)) = [rLate] := by
  decide

/-- Claim C4, amended: the date stage retains exactly the rows whose full
timestamp (time-of-day not truncated) lies in
`[midnight fromDate, midnight toDate]`; when every order date in the frame
carries no time-of-day this is exactly the rows whose date lies in
`[fromDate, toDate]`, and then `fromDate = toDate = d` returns exactly the
rows on date `d`.  Rows dated `toDate` but after midnight are excluded. -/
theorem C4_date_stage (ds : List Record) (f t : Nat) (hft : f ≤ t) :
    (∀ r : Record, r ∈ dateFilter f t ds ↔
      r ∈ ds ∧ midnight f ≤ r.orderDate ∧ r.orderDate ≤ midnight t) ∧
    ((∀ r ∈ ds, r.orderDate % 1440 = 0) →
      ∀ r : Record, r ∈ dateFilter f t ds ↔
        r ∈ ds ∧ f ≤ dateOf r.orderDate ∧ dateOf r.orderDate ≤ t) ∧
    ((∀ r ∈ ds, r.orderDate % 1440 = 0) → f = t →
      dateFilter f t ds = ds.filter fun r => decide (dateOf r.orderDate = f)) := by
  refine ⟨fun r => mem_dateFilter, ?_, ?_⟩
  · intro hmod r
    rw [mem_dateFilter]
    constructor
    · rintro ⟨hr, h1, h2⟩
      have := hmod r hr
      refine ⟨hr, ?_, ?_⟩ <;> simp only [midnight, dateOf] at * <;> omega
    · rintro ⟨hr, h1, h2⟩
      have := hmod r hr
      refine ⟨hr, ?_, ?_⟩ <;> simp only [midnight, dateOf] at * <;> omega
  · intro hmod hf
    subst hf
    rw [dateFilter]
    apply List.filter_congr
    intro r hr
    have := hmod r hr
    simp only [midnight, dateOf]
    have hiff : (f * 1440 ≤ r.orderDate ∧ r.orderDate ≤ f * 1440) ↔
        r.orderDate / 1440 = f := by omega
    rw [Bool.eq_iff_iff]
    simp only [Bool.and_eq_true, decide_eq_true_eq]
    exact hiff

theorem C4_date_stage_witness :
    (rMid ∈ dateFilter 7 7 [rMid] ↔
      rMid ∈ [rMid] ∧ 7 ≤ dateOf rMid.orderDate ∧ dateOf rMid.orderDate ≤ 7) ∧
    dateFilter 7 7 [rMid] =
      [rMid].filter fun r => decide (dateOf r.orderDate = 7) :=
  ⟨(C4_date_stage [rMid] 7 7 (le_refl 7)).2.1 (by decide) rMid,
   (C4_date_stage [rMid] 7 7 (le_refl 7)).2.2 (by decide) rfl⟩

/-- Claim C5: an inverted date range (`from_date > to_date`) raises the
sidebar error flag but nothing else: the working set is still computed with
the given bounds, comes out empty, and the KPI stage degrades to zeros. -/
theorem C5_invalid_range (ds : List Record) (sel : FilterSelection)
    (h : sel.toDate < sel.fromDate) :
    date_range_error sel = true ∧ df ds sel = [] ∧
    computeKPIs (df ds sel) = ⟨0, 0, 0, 0⟩ := by
  have hdf : df ds sel = [] := by
    rw [df, dateFilter]
    apply List.filter_eq_nil_iff.mpr
    intro r _
    simp only [Bool.and_eq_true, decide_eq_true_eq, midnight, not_and]
    intro h1 h2
    omega
  exact ⟨by simp [date_range_error, h], hdf, by rw [hdf]; rfl⟩

theorem C5_invalid_range_witness :
    date_range_error selBad = true ∧ df [rWest] selBad = [] ∧
    computeKPIs (df [rWest] selBad) = ⟨0, 0, 0, 0⟩ :=
  C5_invalid_range [rWest] selBad (by decide)

/-- Claim C6: the state option list is exactly the sorted duplicate-free
list of the states present in the rows matching the region selection alone
(all rows when the region is `"All"`), and the category / sub-category
option lists are likewise derived only from the rows matching the filters
earlier in the cascade. -/
theorem C6_cascaded_options (ds : List Record) (sel : FilterSelection) :
    List.Sorted (· ≤ ·) (all_states ds sel) ∧ (all_states ds sel).Nodup ∧
    (∀ s : String, s ∈ all_states ds sel ↔
      ∃ r ∈ ds, choiceMatches sel.region r.region = true ∧
        r.state = some s) ∧
    (∀ c : String, c ∈ all_categories ds sel ↔
      ∃ r ∈ ds, choiceMatches sel.region r.region = true ∧
        choiceMatches sel.state r.state = true ∧ r.category = some c) ∧
    (∀ v : String, v ∈ all_subcats ds sel ↔
      ∃ r ∈ ds, choiceMatches sel.region r.region = true ∧
        choiceMatches sel.state r.state = true ∧
        choiceMatches sel.category r.category = true ∧
        r.subCategory = some v) := by
  refine ⟨sortedUnique_sorted _, sortedUnique_nodup _, ?_, ?_, ?_⟩ <;>
    intro x <;>
    simp only [all_states, all_categories, all_subcats, mem_sortedUnique,
      List.mem_filterMap, df_filtered_category, df_filtered_state,
      df_filtered_region, mem_catFilter] <;>
    constructor
  · rintro ⟨r, ⟨hr, h1⟩, h2⟩; exact ⟨r, hr, h1, h2⟩
  · rintro ⟨r, hr, h1, h2⟩; exact ⟨r, ⟨hr, h1⟩, h2⟩
  · rintro ⟨r, ⟨⟨hr, h1⟩, h2⟩, h3⟩; exact ⟨r, hr, h1, h2, h3⟩
  · rintro ⟨r, hr, h1, h2, h3⟩; exact ⟨r, ⟨⟨hr, h1⟩, h2⟩, h3⟩
  · rintro ⟨r, ⟨⟨⟨hr, h1⟩, h2⟩, h3⟩, h4⟩; exact ⟨r, hr, h1, h2, h3, h4⟩
  · rintro ⟨r, hr, h1, h2, h3, h4⟩; exact ⟨r, ⟨⟨⟨hr, h1⟩, h2⟩, h3⟩, h4⟩

theorem C6_cascaded_options_witness :
    "California" ∈ all_states [rWest] selEast ↔
      ∃ r ∈ [rWest], choiceMatches selEast.region r.region = true ∧
        r.state = some "California" :=
  (C6_cascaded_options [rWest] selEast).2.2.1 "California"

/-- Claim C7: the filter cascade applies region, state, category,
sub-category, then the date range, each stage on the previous stage's
output; an `"All"` selection passes the frame through unchanged and any
other selection keeps exactly the rows whose field equals the selected
value, so the final `df` equals a single filter by the conjunction of all
five stage predicates. -/
theorem C7_cascade_order (ds : List Record) (sel : FilterSelection) :
    (∀ (get : Record → Option String) (l : List Record),
      catFilter get Choice.all l = l) ∧
    (∀ (get : Record → Option String) (v : String) (l : List Record),
      catFilter get (Choice.value v) l =
        l.filter fun r => decide (get r = some v)) ∧
    df ds sel =
      dateFilter sel.fromDate sel.toDate
        (catFilter Record.subCategory sel.subCategory
          (catFilter Record.category sel.category
            (catFilter Record.state sel.state
              (catFilter Record.region sel.region ds)))) ∧
    df ds sel = ds.filter fun r => matchesSelection sel r :=
  ⟨fun _ _ => rfl, fun _ _ _ => rfl, rfl, df_eq_filter ds sel⟩

/-- Claim C8: the working set is a sub-multiset of the dataset — every row
of `df` occurs in the dataset and no row occurs more often in `df` than
there. -/
theorem C8_working_set_subset (ds : List Record) (sel : FilterSelection) :
    (∀ r ∈ df ds sel, r ∈ ds) ∧
    ∀ r : Record, (df ds sel).count r ≤ ds.count r :=
  ⟨fun _ hr => (df_sublist ds sel).subset hr,
   fun r => (df_sublist ds sel).count_le r⟩

theorem C8_working_set_subset_witness :
    rWest ∈ ([rWest] : List Record) ∧
    (df [rWest] selAll).count rWest ≤ ([rWest] : List Record).count rWest :=
  ⟨(C8_working_set_subset [rWest] selAll).1 rWest (by decide),
   (C8_working_set_subset [rWest] selAll).2 rWest⟩

/-- Claim C9, counterexample: on a dataset whose only row has a missing
product name, `groupby("Product Name")` drops the row (pandas
`dropna=True`), so the sum of the per-group sales sums is `0` while the
direct sales sum is `5` — the partition equation fails. -/
theorem C9_counterexample :
    ((product_grouped [rNoName]).map GroupAgg.sales).sum ≠
      ([rNoName].map Record.sales).sum := by
  have h : product_grouped [rNoName] = [] := by
    simp [product_grouped, groupby, rNoName, List.dedup]
  rw [h]
  norm_num [rNoName]

/-- Claim C9, amended: on every dataset in which each row carries a product
name, summing the per-group sums of the product grouping equals summing the
column directly, for sales, quantity and profit alike; rows with a missing
product name are dropped by the grouping and are not covered. -/
theorem C9_sum_partition (ds : List Record)
    (h : ∀ r ∈ ds, r.productName ≠ none) :
    ((product_grouped ds).map GroupAgg.sales).sum =
      (ds.map Record.sales).sum ∧
    ((product_grouped ds).map GroupAgg.quantity).sum =
      (ds.map Record.quantity).sum ∧
    ((product_grouped ds).map GroupAgg.profit).sum =
      (ds.map Record.profit).sum :=
  ⟨groupby_sum_partition _ _ _ (fun _ _ => rfl) ds h,
   groupby_sum_partition _ _ _ (fun _ _ => rfl) ds h,
   groupby_sum_partition _ _ _ (fun _ _ => rfl) ds h⟩

theorem C9_sum_partition_witness :
    ((product_grouped [rProdA]).map GroupAgg.sales).sum =
      ([rProdA].map Record.sales).sum :=
  (C9_sum_partition [rProdA] (by decide)).1

/-- Claim C10: every option list is built from `dropna`ed values, so each
offered option is a value actually present (as `some _`) in the rows of the
appropriate cascade stage; and a row with a missing value in a dimension
survives into `df` only when that dimension's selection is `"All"`. -/
theorem C10_missing_values (ds : List Record) (sel : FilterSelection) :
    (∀ v ∈ all_regions ds, ∃ r ∈ ds, r.region = some v) ∧
    (∀ v ∈ all_states ds sel,
      ∃ r ∈ df_filtered_region ds sel, r.state = some v) ∧
    (∀ v ∈ all_categories ds sel,
      ∃ r ∈ df_filtered_state ds sel, r.category = some v) ∧
    (∀ v ∈ all_subcats ds sel,
      ∃ r ∈ df_filtered_category ds sel, r.subCategory = some v) ∧
    (∀ r ∈ df ds sel,
      (r.region = none → sel.region = Choice.all) ∧
      (r.state = none → sel.state = Choice.all) ∧
      (r.category = none → sel.category = Choice.all) ∧
      (r.subCategory = none → sel.subCategory = Choice.all)) := by
  refine ⟨?_, ?_, ?_, ?_, ?_⟩
  · intro v hv
    rw [all_regions, mem_sortedUnique, List.mem_filterMap] at hv
    exact hv
  · intro v hv
    rw [all_states, mem_sortedUnique, List.mem_filterMap] at hv
    exact hv
  · intro v hv
    rw [all_categories, mem_sortedUnique, List.mem_filterMap] at hv
    exact hv
  · intro v hv
    rw [all_subcats, mem_sortedUnique, List.mem_filterMap] at hv
    exact hv
  · intro r hr
    have hm := (mem_df.mp hr).2
    simp only [matchesSelection, Bool.and_eq_true] at hm
    refine ⟨fun h0 => ?_, fun h0 => ?_, fun h0 => ?_, fun h0 => ?_⟩
    · exact choiceMatches_none (h0 ▸ hm.1.1.1.1)
    · exact choiceMatches_none (h0 ▸ hm.1.1.1.2)
    · exact choiceMatches_none (h0 ▸ hm.1.1.2)
    · exact choiceMatches_none (h0 ▸ hm.1.2)

theorem C10_missing_values_witness :
    ∃ r ∈ ([rWest] : List Record), r.region = some "West" :=
  (C10_missing_values [rWest] selAll).1 "West" (by
    rw [all_regions, mem_sortedUnique]
    decide)

end Dashboard
